import Mathlib

/-!
Verification of the WAF tester (`waf_tester.py`) against its natural-language
specification.  Python strings are modelled as `List Char`; Python dicts of
headers as association lists with insertion-order update semantics; the
network and the random generator are modelled as explicit traces of
per-attempt events.  A Python function that can raise an uncaught exception
is modelled as returning `Option`/a dedicated constructor.
-/

set_option autoImplicit false

namespace WafTester

/-- Python strings, modelled as lists of characters. -/
abbrev Str := List Char

/-- Whitespace test used by `str.strip` / `str.split`. -/
def isWsChar (c : Char) : Bool := c.isWhitespace

/-- Python `s.strip()`: drop leading and trailing whitespace. -/
def pyStrip (s : Str) : Str :=
  ((s.dropWhile isWsChar).reverse.dropWhile isWsChar).reverse

/-- Python `s.rstrip()`: drop trailing whitespace. -/
def pyRStrip (s : Str) : Str :=
  (s.reverse.dropWhile isWsChar).reverse

/-- Python `s.split(c)` for a one-character separator `c`:
always returns a non-empty list, `"".split(c) == [""]`. -/
def splitOnChar (c : Char) : Str → List Str
  | [] => [[]]
  | x :: xs =>
    if x = c then [] :: splitOnChar c xs
    else
      match splitOnChar c xs with
      | [] => [[x]]
      | y :: ys => (x :: y) :: ys

/-- Splitting at every whitespace character (empty fields kept). -/
def splitOnWs : Str → List Str
  | [] => [[]]
  | x :: xs =>
    if isWsChar x then [] :: splitOnWs xs
    else
      match splitOnWs xs with
      | [] => [[x]]
      | y :: ys => (x :: y) :: ys

/-- Python `s.split()` with no argument: whitespace-delimited tokens,
empty tokens dropped. -/
def splitWs (s : Str) : List Str :=
  (splitOnWs s).filter (fun t => !t.isEmpty)

/-- Python `c in s` for a single character. -/
def containsChar (c : Char) (s : Str) : Bool := s.any (fun x => x = c)

/-- Python `s.split(c, 1)`: split at the first occurrence of `c`.
Returns `none` when `c` does not occur (in which case the Python
two-variable unpacking of the result would raise). -/
def splitFirst (c : Char) : Str → Option (Str × Str)
  | [] => none
  | x :: xs =>
    if x = c then some ([], xs)
    else (splitFirst c xs).map (fun p => (x :: p.1, p.2))

/-- Does `pre` occur at the start of `s`? -/
def strStarts : Str → Str → Bool
  | [], _ => true
  | _ :: _, [] => false
  | a :: as, b :: bs => a == b && strStarts as bs

/-- Python `needle in hay` for strings: substring test. -/
def strHas (needle : Str) (hay : Str) : Bool :=
  strStarts needle hay ||
    match hay with
    | [] => false
    | _ :: t => strHas needle t

/-- Join a list of lines with newline separators (no trailing newline). -/
def nlJoin : List Str → Str
  | [] => []
  | [l] => l
  | l :: l2 :: ls => l ++ '\n' :: nlJoin (l2 :: ls)

/-- Python dict lookup `d.get(k, dflt)` (keys are unique in a real dict;
the first binding wins here). -/
def dictGet (d : List (Str × Str)) (k : Str) (dflt : Str) : Str :=
  match d.find? (fun p => p.1 == k) with
  | some p => p.2
  | none => dflt

/-- Python `k in d` for a dict. -/
def containsKey (d : List (Str × Str)) (k : Str) : Bool :=
  d.any (fun p => p.1 == k)

/-- Python `d[k] = v`: replace the value in place if the key is present,
otherwise append the new binding at the end (insertion order preserved). -/
def dictInsert (d : List (Str × Str)) (k v : Str) : List (Str × Str) :=
  if containsKey d k then d.map (fun p => if p.1 == k then (p.1, v) else p)
  else d ++ [(k, v)]

/-- Digit-run parser: all characters must be decimal digits. -/
def digitsToNat (s : Str) : Option Nat :=
  if s.isEmpty then none
  else if s.all (fun c => c.isDigit) then
    some (s.foldl (fun n c => 10 * n + (c.toNat - '0'.toNat)) 0)
  else none

/-- Python `int(s)` on an already-stripped token: optional sign followed by
digits; `none` models a raised `ValueError`. -/
def pyInt (s : Str) : Option Int :=
  match s with
  | '-' :: rest => (digitsToNat rest).map (fun n => -(n : Int))
  | '+' :: rest => (digitsToNat rest).map (fun n => (n : Int))
  | _ => (digitsToNat s).map (fun n => (n : Int))

/-- UTF-8 byte length of a string, `len(s.encode("utf-8"))`. -/
def utf8Len (s : Str) : Nat := s.foldl (fun n c => n + c.utf8Size) 0

/-- Decimal rendering of a natural number, `str(n)`. -/
def natStr (n : Nat) : Str := (toString n).toList

/-- Header/body scan of `parse_http_request` (`waf_tester.py` lines 33-47):
walk the lines after the request line, collecting `name: value` headers until
the first whitespace-only line, then accumulate every further line into the
body followed by a newline.  The colon branch models the Python two-variable
unpacking of `line.split(':', 1)`, whose failure would be an exception
(`none`). -/
def parseLinesAux : List Str → List (Str × Str) → Str → Bool →
    Option (List (Str × Str) × Str)
  | [], hs, b, _ => some (hs, b)
  | l :: ls, hs, b, inBody =>
    if inBody then parseLinesAux ls hs (b ++ l ++ ['\n']) true
    else if pyStrip l = [] then parseLinesAux ls hs b true
    else if containsChar ':' l then
      match splitFirst ':' l with
      | some kv => parseLinesAux ls (dictInsert hs (pyStrip kv.1) (pyStrip kv.2)) b false
      | none => none
    else parseLinesAux ls hs b false

/-- Model of `parse_http_request` (`waf_tester.py` lines 20-51).  The content
is stripped, split into lines; the first line is the request line, headers
and body are collected by `parseLinesAux`, and the body is right-stripped.
`none` models an uncaught exception (`lines[0]` on an empty list, or a failed
header split). -/
def parse_http_request (content : Str) :
    Option (Str × List (Str × Str) × Str) :=
  match splitOnChar '\n' (pyStrip content) with
  | [] => none
  | rl :: rest =>
    match parseLinesAux rest [] [] false with
    | some hb => some (rl, hb.1, pyRStrip hb.2)
    | none => none

/-- The body component of a parsed request (empty on the unreachable
exception case). -/
def parsedBody (content : Str) : Str :=
  match parse_http_request content with
  | some t => t.2.2
  | none => []

/-- The lines strictly after the first whitespace-only line
(everything dropped when no such line exists). -/
def linesAfterFirstBlank : List Str → List Str
  | [] => []
  | l :: ls => if pyStrip l = [] then ls else linesAfterFirstBlank ls

/-- Result quadruple of `send_request`: status code (0 = no valid response),
reason phrase, response body, and whether a connection reset was detected. -/
structure TransportOutcome where
  statusCode : Int
  reason : Str
  responseBody : Str
  isRst : Bool
  deriving DecidableEq

/-- What the network does on one real (non-skipped) delivery attempt:
a raw response buffer, or one of the three exception classes of the
`try` block in `send_request`. -/
inductive NetEvent where
  | response (raw : Str)
  | timeout
  | reset
  | otherError
  deriving DecidableEq

/-- One attempt of the retry loop: the uniform random draw consumed by the
packet-loss simulation, and the network behaviour if the call is made. -/
structure AttemptTrace where
  draw : ℚ
  net : NetEvent

/-- The packet-loss test of `send_request` line 138:
`packet_loss_rate > 0 and random.random() < packet_loss_rate`. -/
def lossHappens (rate draw : ℚ) : Bool :=
  decide (0 < rate) && decide (draw < rate)

/-- Join tokens with single spaces, Python `' '.join(parts)`. -/
def spaceJoin : List Str → Str
  | [] => []
  | [l] => l
  | l :: l2 :: ls => l ++ ' ' :: spaceJoin (l2 :: ls)

/-- Python `response_str.split('\r\n')[0]`. -/
def takeUntilCrlf : Str → Str
  | [] => []
  | '\r' :: '\n' :: _ => []
  | c :: cs => c :: takeUntilCrlf cs

/-- What one iteration of the `try` block does, given the network event:
either a `return` with an outcome, or one of the three exception classes.
Parsing the status line (lines 188-197) happens inside the `try`, so a
non-numeric status code token raises and lands in the generic
`except Exception` branch. -/
inductive TryResult where
  | ret (o : TransportOutcome)
  | exTimeout
  | exReset
  | exOther
  deriving DecidableEq

/-- Model of one loop body of `send_request` after the loss check
(lines 145-224): response parsing and the exception taxonomy. -/
def tryAttempt (e : NetEvent) : TryResult :=
  match e with
  | .timeout => .exTimeout
  | .reset => .exReset
  | .otherError => .exOther
  | .response raw =>
    let statusParts := splitWs (takeUntilCrlf raw)
    if statusParts.length < 2 then
      .ret ⟨0, "Invalid response status line".toList, raw, false⟩
    else
      match pyInt (statusParts.getD 1 []) with
      | none => .exOther
      | some code =>
        .ret ⟨code, spaceJoin (statusParts.drop 2), raw, false⟩

/-- Terminal outcome after the loop exhausts via packet loss alone
(line 226): `All {max_retries} attempts failed`. -/
def allFailedO (maxRetries : Nat) : TransportOutcome :=
  ⟨0, "All ".toList ++ natStr maxRetries ++ " attempts failed".toList, [], false⟩

/-- Terminal outcome of the timeout branch (line 206). -/
def timeoutO (maxRetries : Nat) : TransportOutcome :=
  ⟨0, "Timeout (tried ".toList ++ natStr maxRetries ++ " times)".toList, [], false⟩

/-- Terminal outcome of the connection-reset branch (line 215):
the only terminal outcome with the reset flag set. -/
def resetO : TransportOutcome :=
  ⟨0, "Connection Reset by Peer".toList, [], true⟩

/-- Terminal outcome of the generic error branch with debug off (line 224). -/
def otherO : TransportOutcome :=
  ⟨0, "Connection Error".toList, [], false⟩

/-- Retry loop of `send_request` (lines 136-226), with `debug=False`.
Returns the outcome together with the number of loop iterations consumed
and the number of real network calls made.  `attempt` is the Python loop
index; `remaining` is the fuel `maxRetries - attempt`. -/
def sendAttempts (rate : ℚ) (tr : Nat → AttemptTrace) (maxRetries : Nat) :
    Nat → Nat → TransportOutcome × Nat × Nat
  | _, 0 => (allFailedO maxRetries, 0, 0)
  | attempt, r + 1 =>
    let t := tr attempt
    if lossHappens rate t.draw then
      let nxt := sendAttempts rate tr maxRetries (attempt + 1) r
      (nxt.1, nxt.2.1 + 1, nxt.2.2)
    else
      match tryAttempt t.net with
      | .ret o => (o, 1, 1)
      | .exTimeout =>
        if attempt < maxRetries - 1 then
          let nxt := sendAttempts rate tr maxRetries (attempt + 1) r
          (nxt.1, nxt.2.1 + 1, nxt.2.2 + 1)
        else (timeoutO maxRetries, 1, 1)
      | .exReset =>
        if attempt < maxRetries - 1 then
          let nxt := sendAttempts rate tr maxRetries (attempt + 1) r
          (nxt.1, nxt.2.1 + 1, nxt.2.2 + 1)
        else (resetO, 1, 1)
      | .exOther =>
        if attempt < maxRetries - 1 then
          let nxt := sendAttempts rate tr maxRetries (attempt + 1) r
          (nxt.1, nxt.2.1 + 1, nxt.2.2 + 1)
        else (otherO, 1, 1)

/-- Result of destination resolution in `send_request` (lines 87-107). -/
inductive ResolveResult where
  | dest (host : Str) (port : Int)
  | errOutcome (o : TransportOutcome)
  | raised
  deriving DecidableEq

/-- The error outcome returned when no destination is determinable
(line 101). -/
def noHostO : TransportOutcome :=
  ⟨0, "No Host header found and no target specified".toList, [], false⟩

/-- Default port by protocol, `443 if protocol == 'https' else 80`. -/
def defaultPort (protocol : Str) : Int :=
  if protocol = "https".toList then 443 else 80

/-- Resolve a `host:port` style string: split at the first colon when one is
present and parse the port with `int` (a parse failure is an uncaught
exception), otherwise use the protocol default port. -/
def resolveHostPort (s : Str) (protocol : Str) : ResolveResult :=
  if containsChar ':' s then
    match splitFirst ':' s with
    | some hp =>
      match pyInt hp.2 with
      | some n => .dest hp.1 n
      | none => .raised
    | none => .raised
  else .dest s (defaultPort protocol)

/-- The Host lookup of `send_request` line 87:
`headers.get('Host', headers.get('host', ''))` — exact-case keys only. -/
def pyHostLookup (headers : List (Str × Str)) : Str :=
  dictGet headers "Host".toList (dictGet headers "host".toList [])

/-- Is a header named `Host` present under HTTP's case-insensitive
comparison of header names? -/
def hasHostHeaderCI (headers : List (Str × Str)) : Bool :=
  headers.any (fun p => p.1.map Char.toLower == "host".toList)

/-- Is a header named `Content-Length` present under HTTP's case-insensitive
comparison of header names? -/
def hasContentLengthCI (headers : List (Str × Str)) : Bool :=
  headers.any (fun p => p.1.map Char.toLower == "content-length".toList)

/-- Destination resolution of `send_request` (lines 87-107): the explicit
target override wins when truthy; otherwise the value found under the exact
keys `'Host'` then `'host'` is used; an empty lookup fails closed with the
`noHostO` outcome. -/
def resolveDest (headers : List (Str × Str)) (target : Option Str)
    (protocol : Str) : ResolveResult :=
  let hostInHeader := pyHostLookup headers
  match target with
  | some th =>
    if th.isEmpty then
      if hostInHeader.isEmpty then .errOutcome noHostO
      else resolveHostPort hostInHeader protocol
    else resolveHostPort th protocol
  | none =>
    if hostInHeader.isEmpty then .errOutcome noHostO
    else resolveHostPort hostInHeader protocol

/-- Header completion of `send_request` (lines 114-119): when neither the
exact key `'Content-Length'` nor the exact key `'content-length'` is present,
add a `Content-Length` header whose value is the UTF-8 byte length of the
body (`0` for an empty body). -/
def headersToSend (headers : List (Str × Str)) (body : Str) :
    List (Str × Str) :=
  if ¬(containsKey headers "Content-Length".toList = true ∨
        containsKey headers "content-length".toList = true) then
    dictInsert headers "Content-Length".toList
      (natStr (if body.isEmpty then 0 else utf8Len body))
  else headers

/-- Model of `send_request` (lines 53-226), with `debug=False`.  `none`
models an uncaught exception (only possible from `int(port_str)` during
resolution).  The wire serialization (lines 109-130) does not influence the
modelled outcome and is represented by `headersToSend`. -/
def sendRequest (requestLine : Str) (headers : List (Str × Str)) (body : Str)
    (target : Option Str) (protocol : Str) (rate : ℚ) (maxRetries : Nat)
    (tr : Nat → AttemptTrace) : Option (TransportOutcome × Nat × Nat) :=
  let parts := splitWs requestLine
  if parts.length < 2 then
    some (⟨0, "Invalid request line".toList, [], false⟩, 0, 0)
  else
    match resolveDest headers target protocol with
    | .errOutcome o => some (o, 0, 0)
    | .raised => none
    | .dest _ _ =>
      let _ := headersToSend headers body
      some (sendAttempts rate tr maxRetries 0 maxRetries)

/-- Python truthiness of an optional string. -/
def optTruthy : Option Str → Bool
  | none => false
  | some s => !s.isEmpty

/-- The keyword value, `[]` when absent. -/
def kwVal (kw : Option Str) : Str := kw.getD []

/-- Blocking detection of `test_file_content` (lines 257-269): sequential
checks for the custom status code, the reset flag (when enabled), and the
keyword (when truthy) in the response body or the reason phrase. -/
def actuallyBlocked (statusCode : Int) (reason responseBody : Str)
    (isRst : Bool) (customCode : Int) (rstDetect : Bool)
    (keyword : Option Str) : Bool :=
  let ab0 := false
  let ab1 := if statusCode = customCode then true else ab0
  let ab2 := if rstDetect && isRst then true else ab1
  if optTruthy keyword then
    if strHas (kwVal keyword) responseBody || strHas (kwVal keyword) reason
    then true else ab2
  else ab2

/-- Result tuple of `test_file_content` (line 275):
`("", is_correct, status_code, reason, sample_type, content)`. -/
structure TestResult where
  fname : Str
  isCorrect : Bool
  statusCode : Int
  reason : Str
  sampleType : Str
  content : Str
  deriving DecidableEq

/-- Model of `test_file_content` (lines 229-275): parse the sample, send
the request, apply the detection policy, and compare with the expectation.
`none` models an uncaught exception escaping from `send_request`. -/
def testFileContent (content : Str) (isBlack : Bool) (target : Option Str)
    (protocol : Str) (rate : ℚ) (maxRetries : Nat) (customCode : Int)
    (rstDetect : Bool) (keyword : Option Str) (tr : Nat → AttemptTrace) :
    Option TestResult :=
  match parse_http_request content with
  | none => none
  | some rhb =>
    match sendRequest rhb.1 rhb.2.1 rhb.2.2 target protocol rate maxRetries tr with
    | none => none
    | some oc =>
      some
        { fname := []
          isCorrect :=
            isBlack ==
              actuallyBlocked oc.1.statusCode oc.1.reason oc.1.responseBody
                oc.1.isRst customCode rstDetect keyword
          statusCode := oc.1.statusCode
          reason := oc.1.reason
          sampleType :=
            if isBlack then "黑样本".toList else "白样本".toList
          content := content }

/-- Python true division `a / b`, raising `ZeroDivisionError` on a zero
denominator (`none`). -/
def pyDiv (a b : ℚ) : Option ℚ :=
  if b = 0 then none else some (a / b)

/-- Aggregate statistics printed by `test_directory` (lines 490-523). -/
structure RunStats where
  total : Nat
  correct : Nat
  blackTotal : Nat
  blackCorrect : Nat
  whiteTotal : Nat
  whiteIncorrect : Nat
  detectionRate : ℚ
  falsePositiveRate : ℚ
  deriving DecidableEq

/-- How a `test_directory` invocation ends. -/
inductive DirRunResult where
  | earlyReturn
  | finished (stats : RunStats)
  | crashed
  deriving DecidableEq

/-- Control-flow model of `test_directory` (lines 378-538).  Each sample is
summarised by the pair `(expectedBlocked, isCorrect)` its worker produces
(`test_file_wrapper` catches every exception, so workers always yield a
result).  A missing directory prints an error and returns early (line 407).
The summary block divides `correct_count` by `total_count` (line 520), which
raises `ZeroDivisionError` when the directory holds no samples; an uncaught
exception is `crashed`.  CSV output and sample copying are disabled by
default and not modelled. -/
def test_directory_run (dirExists : Bool) (results : List (Bool × Bool)) :
    DirRunResult :=
  if ¬dirExists then .earlyReturn
  else
    let total := results.length
    let correct := (results.filter (fun r => r.2)).length
    let blackTotal := (results.filter (fun r => r.1)).length
    let whiteTotal := (results.filter (fun r => !r.1)).length
    let blackCorrect := (results.filter (fun r => r.1 && r.2)).length
    let whiteIncorrect := (results.filter (fun r => !r.1 && !r.2)).length
    let detectionRate : ℚ :=
      if blackTotal > 0 then (blackCorrect : ℚ) / (blackTotal : ℚ) * 100 else 0
    let fpRate : ℚ :=
      if whiteTotal > 0 then (whiteIncorrect : ℚ) / (whiteTotal : ℚ) * 100 else 0
    match pyDiv (correct : ℚ) (total : ℚ) with
    | none => .crashed
    | some _ =>
      .finished
        ⟨total, correct, blackTotal, blackCorrect, whiteTotal, whiteIncorrect,
          detectionRate, fpRate⟩

/-- Exit-code model of `main` (lines 580-654): a falsy `--target` prints the
help text and calls `sys.exit(1)` (line 622); otherwise `test_directory`
runs, an uncaught exception terminates the interpreter with status 1, and a
normal return exits 0. -/
def mainExit (target : Option Str) (dirExists : Bool)
    (results : List (Bool × Bool)) : Nat :=
  match target with
  | none => 1
  | some t =>
    if t.isEmpty then 1
    else
      match test_directory_run dirExists results with
      | .earlyReturn => 0
      | .finished _ => 0
      | .crashed => 1

/-- The body accumulator shape of `parse_http_request`: each body line
followed by a newline. -/
def bodyJoin (ls : List Str) : Str :=
  ls.foldr (fun l acc => l ++ '\n' :: acc) []

/-- The text strictly after the first whitespace-only line following the
first line of `s` (empty when there is no such line). -/
def textAfterFirstBlankLine (s : Str) : Str :=
  nlJoin (linesAfterFirstBlank ((splitOnChar '\n' s).drop 1))

/-- Does this attempt fail (either skipped by simulated packet loss, or the
network call raises one of the three exception classes)? -/
def isFailEvent (rate : ℚ) (t : AttemptTrace) : Bool :=
  lossHappens rate t.draw ||
    match tryAttempt t.net with
    | .ret _ => false
    | _ => true

/-- The terminal outcome after all `maxRetries` attempts fail, determined by
the last attempt: a packet-loss skip falls out of the loop (`allFailedO`),
otherwise the last exception class picks the timeout, reset, or generic
terminal outcome.  (The `ret` arm is unreachable when the last attempt
fails.) -/
def exhaustOutcome (rate : ℚ) (tr : Nat → AttemptTrace) (maxRetries : Nat) :
    TransportOutcome :=
  let t := tr (maxRetries - 1)
  if lossHappens rate t.draw then allFailedO maxRetries
  else
    match tryAttempt t.net with
    | .exTimeout => timeoutO maxRetries
    | .exReset => resetO
    | .exOther => otherO
    | .ret o => o

theorem splitOnChar_ne_nil (c : Char) (s : Str) : splitOnChar c s ≠ [] := by
  induction s with
  | nil => simp [splitOnChar]
  | cons x xs ih =>
    simp only [splitOnChar]
    split
    · simp
    · cases h : splitOnChar c xs <;> simp

theorem splitFirst_isSome (c : Char) (l : Str)
    (h : containsChar c l = true) : (splitFirst c l).isSome = true := by
  induction l with
  | nil => simp [containsChar] at h
  | cons x xs ih =>
    simp only [splitFirst]
    by_cases hx : x = c
    · simp [hx]
    · simp only [containsChar, List.any_cons] at h
      rcases Bool.or_eq_true_iff.mp h with h1 | h2
      · exact absurd (of_decide_eq_true h1) hx
      · simpa [hx, Option.isSome_map] using ih h2

theorem splitFirst_contains (c : Char) (l : Str) (hp : Str × Str)
    (h : splitFirst c l = some hp) : containsChar c l = true := by
  induction l generalizing hp with
  | nil => simp [splitFirst] at h
  | cons x xs ih =>
    simp only [splitFirst] at h
    by_cases hx : x = c
    · simp [containsChar, hx]
    · simp only [hx, if_false] at h
      cases h4 : splitFirst c xs with
      | none => rw [h4] at h; simp at h
      | some p =>
        simp only [containsChar, List.any_cons]
        exact Bool.or_eq_true_iff.mpr (Or.inr (by simpa [containsChar] using ih p h4))

theorem parseLinesAux_isSome (ls : List Str) :
    ∀ (hs : List (Str × Str)) (b : Str) (inBody : Bool),
      (parseLinesAux ls hs b inBody).isSome = true := by
  induction ls with
  | nil => intro hs b inBody; simp [parseLinesAux]
  | cons l ls ih =>
    intro hs b inBody
    simp only [parseLinesAux]
    split
    · exact ih _ _ _
    · split
      · exact ih _ _ _
      · split
        · split
          · exact ih _ _ _
          · have h3 : containsChar ':' l = true := by assumption
            have h4 : splitFirst ':' l = none := by assumption
            have := splitFirst_isSome ':' l h3
            rw [h4] at this
            simp at this
        · exact ih _ _ _

/-- C10: `parse_http_request` is total: for every input string, it returns a
`(request line, headers, body)` triple rather than raising, because the line
list produced by splitting is always non-empty and a header line is split
only when it contains a colon. -/
theorem c10_parse_total (content : Str) :
    (parse_http_request content).isSome = true := by
  unfold parse_http_request
  cases h : splitOnChar '\n' (pyStrip content) with
  | nil => exact absurd h (splitOnChar_ne_nil _ _)
  | cons rl rest =>
    have := parseLinesAux_isSome rest [] [] false
    cases h2 : parseLinesAux rest [] [] false with
    | none => rw [h2] at this; simp at this
    | some hb => simp [h2]

theorem parseLinesAux_inBody (ls : List Str) :
    ∀ (hs : List (Str × Str)) (b : Str),
      parseLinesAux ls hs b true = some (hs, b ++ bodyJoin ls) := by
  induction ls with
  | nil => intro hs b; simp [parseLinesAux, bodyJoin]
  | cons l ls ih =>
    intro hs b
    simp only [parseLinesAux, if_true]
    rw [ih]
    simp [bodyJoin, List.append_assoc]

theorem parseLinesAux_headers (ls : List Str) :
    ∀ (hs : List (Str × Str)) (b : Str),
      ∃ hs2, parseLinesAux ls hs b false =
        some (hs2, b ++ bodyJoin (linesAfterFirstBlank ls)) := by
  induction ls with
  | nil =>
    intro hs b
    exact ⟨hs, by simp [parseLinesAux, linesAfterFirstBlank, bodyJoin]⟩
  | cons l ls ih =>
    intro hs b
    simp only [parseLinesAux, linesAfterFirstBlank]
    by_cases h2 : pyStrip l = []
    · refine ⟨hs, ?_⟩
      simp [h2, parseLinesAux_inBody]
    · simp only [h2, if_false]
      by_cases h3 : containsChar ':' l = true
      · have hsome := splitFirst_isSome ':' l h3
        cases h4 : splitFirst ':' l with
        | none => rw [h4] at hsome; simp at hsome
        | some kv =>
          simp only [h3, if_true, h4]
          exact ih _ b
      · simp only [h3, if_false]
        exact ih hs b

theorem bodyJoin_eq_nlJoin (ls : List Str) :
    bodyJoin ls = if ls.isEmpty then [] else nlJoin ls ++ ['\n'] := by
  induction ls with
  | nil => simp [bodyJoin]
  | cons l ls ih =>
    cases ls with
    | nil => simp [bodyJoin, nlJoin]
    | cons l2 ls2 =>
      simp only [bodyJoin, List.foldr_cons, nlJoin, List.isEmpty_cons] at *
      simp only [if_false, Bool.false_eq_true] at ih
      simp [ih, List.append_assoc]

theorem pyRStrip_append_nl (s : Str) : pyRStrip (s ++ ['\n']) = pyRStrip s := by
  simp [pyRStrip, List.dropWhile, isWsChar]

theorem pyRStrip_bodyJoin (ls : List Str) :
    pyRStrip (bodyJoin ls) = pyRStrip (nlJoin ls) := by
  rw [bodyJoin_eq_nlJoin]
  cases ls with
  | nil => simp [nlJoin]
  | cons l ls => simp [pyRStrip_append_nl]

theorem nlJoin_splitOnChar (s : Str) : nlJoin (splitOnChar '\n' s) = s := by
  induction s with
  | nil => simp [splitOnChar, nlJoin]
  | cons x xs ih =>
    simp only [splitOnChar]
    by_cases hx : x = '\n'
    · simp only [hx, if_true]
      cases h : splitOnChar '\n' xs with
      | nil => exact absurd h (splitOnChar_ne_nil _ _)
      | cons y ys =>
        rw [h] at ih
        simp [nlJoin, ← ih, hx]
    · simp only [hx, if_false]
      cases h : splitOnChar '\n' xs with
      | nil => exact absurd h (splitOnChar_ne_nil _ _)
      | cons y ys =>
        rw [h] at ih
        cases ys with
        | nil => simp [nlJoin] at ih ⊢; exact ih
        | cons z zs => simp [nlJoin] at ih ⊢; simp [← ih]

/-- C5 counterexample: for the sample content
`"GET / HTTP/1.1\nHost: x\n\nhello\n\n"`, everything after the first blank
line is `"hello\n\n"`, so stripping exactly one trailing newline would give
`"hello\n"`; the parser instead returns `"hello"`, because the content is
globally stripped and the body is right-stripped of all trailing
whitespace. -/
theorem c5_counterexample :
    parsedBody "GET / HTTP/1.1\nHost: x\n\nhello\n\n".toList =
      "hello".toList ∧
    "hello".toList ≠ "hello\n".toList := by
  constructor
  · rfl
  · decide

/-- C5 (amended): the parsed body is everything after the first
whitespace-only line of the whitespace-stripped content, with all trailing
whitespace removed — not with exactly one trailing newline stripped.  The
first conjunct certifies that `textAfterFirstBlankLine` really denotes a
piece of the original text: joining the split lines back with newlines is
the identity. -/
theorem c5_body_after_blank_amended :
    (∀ s : Str, nlJoin (splitOnChar '\n' s) = s) ∧
    (∀ content : Str,
      parsedBody content =
        pyRStrip (textAfterFirstBlankLine (pyStrip content))) := by
  refine ⟨nlJoin_splitOnChar, fun content => ?_⟩
  unfold parsedBody parse_http_request textAfterFirstBlankLine
  cases h : splitOnChar '\n' (pyStrip content) with
  | nil => exact absurd h (splitOnChar_ne_nil _ _)
  | cons rl rest =>
    obtain ⟨hs2, h2⟩ := parseLinesAux_headers rest [] []
    simp only [h2, List.nil_append, List.drop_succ_cons, List.drop_zero]
    exact pyRStrip_bodyJoin _

/-- C1: the classifier of `test_file_content` computes `actually_blocked` as
the logical OR of the status-code match, the reset signal (when reset
detection is enabled), and the keyword match against the response body or
the reason phrase (when a keyword is supplied — Python truthiness, so a
non-`None` non-empty keyword); `is_correct` compares the expectation with
that value; and the classification is a pure function, so two runs on
identical inputs agree. -/
theorem c1_classifier_or_formula :
    (∀ (sc : Int) (reason rbody : Str) (rst : Bool) (cc : Int) (rd : Bool)
        (kw : Option Str),
        actuallyBlocked sc reason rbody rst cc rd kw =
          (decide (sc = cc) || (rd && rst) ||
            (optTruthy kw &&
              (strHas (kwVal kw) rbody || strHas (kwVal kw) reason)))) ∧
    (∀ (content : Str) (isBlack : Bool) (target : Option Str) (proto : Str)
        (rate : ℚ) (N : Nat) (cc : Int) (rd : Bool) (kw : Option Str)
        (tr : Nat → AttemptTrace) (oc : TransportOutcome × Nat × Nat)
        (rhb : Str × List (Str × Str) × Str),
        parse_http_request content = some rhb →
        sendRequest rhb.1 rhb.2.1 rhb.2.2 target proto rate N tr = some oc →
        testFileContent content isBlack target proto rate N cc rd kw tr =
          some
            { fname := []
              isCorrect :=
                isBlack ==
                  actuallyBlocked oc.1.statusCode oc.1.reason
                    oc.1.responseBody oc.1.isRst cc rd kw
              statusCode := oc.1.statusCode
              reason := oc.1.reason
              sampleType :=
                if isBlack then "黑样本".toList else "白样本".toList
              content := content }) ∧
    (∀ (content : Str) (isBlack : Bool) (target : Option Str) (proto : Str)
        (rate : ℚ) (N : Nat) (cc : Int) (rd : Bool) (kw : Option Str)
        (tr : Nat → AttemptTrace),
        testFileContent content isBlack target proto rate N cc rd kw tr =
        testFileContent content isBlack target proto rate N cc rd kw tr) := by
  refine ⟨?_, ?_, fun _ _ _ _ _ _ _ _ _ _ => rfl⟩
  · intro sc reason rbody rst cc rd kw
    rcases kw with _ | k
    · simp only [actuallyBlocked, optTruthy, kwVal, Option.getD_none]
      by_cases h1 : sc = cc <;> cases hrd : rd && rst <;> simp [h1, hrd]
    · simp only [actuallyBlocked, optTruthy, kwVal, Option.getD_some]
      by_cases hk : k.isEmpty <;> by_cases h1 : sc = cc <;>
        cases hrd : rd && rst <;>
        by_cases hm : (strHas k rbody || strHas k reason) = true <;>
        simp [hk, h1, hrd, hm]
  · intro content isBlack target proto rate N cc rd kw tr oc rhb hparse hsend
    simp [testFileContent, hparse, hsend]

/-- C1 witness: the classification pipeline evaluated at a concrete sample,
target and response trace. -/
theorem c1_classifier_witness :
    testFileContent "GET / HTTP/1.1\n\n".toList false (some "h".toList)
      "http".toList 0 1 403 false none
      (fun _ => ⟨0, NetEvent.response "HTTP/1.1 200 OK".toList⟩) =
      some
        { fname := []
          isCorrect :=
            false ==
              actuallyBlocked 200 "OK".toList "HTTP/1.1 200 OK".toList
                false 403 false none
          statusCode := 200
          reason := "OK".toList
          sampleType := "白样本".toList
          content := "GET / HTTP/1.1\n\n".toList } :=
  c1_classifier_or_formula.2.1 "GET / HTTP/1.1\n\n".toList false
    (some "h".toList) "http".toList 0 1 403 false none
    (fun _ => ⟨0, NetEvent.response "HTTP/1.1 200 OK".toList⟩)
    (⟨200, "OK".toList, "HTTP/1.1 200 OK".toList, false⟩, 1, 1)
    ("GET / HTTP/1.1".toList, [], []) (by decide) (by decide)

/-- C6 counterexample: with the single header `Content-length: 5` — a
`Content-Length` header under case-insensitive comparison — the wire builder
still appends a second `Content-Length` header, because the code checks only
the exact spellings `Content-Length` and `content-length`. -/
theorem c6_counterexample :
    hasContentLengthCI [("Content-length".toList, "5".toList)] = true ∧
    headersToSend [("Content-length".toList, "5".toList)] "ab".toList =
      [("Content-length".toList, "5".toList),
        ("Content-Length".toList, "2".toList)] := by
  constructor
  · decide
  · decide

/-- C6 (amended): the presence check is for the two exact spellings
`Content-Length` and `content-length` only (not case-insensitive).  When
neither exact key is present, a `Content-Length` header whose value is the
UTF-8 byte length of the body (0 for an empty body) is appended at the end;
when either exact key is present, the header set is unchanged. -/
theorem c6_content_length_amended (hs : List (Str × Str)) (body : Str) :
    (containsKey hs "Content-Length".toList = false →
      containsKey hs "content-length".toList = false →
      headersToSend hs body =
        hs ++ [("Content-Length".toList, natStr (utf8Len body))]) ∧
    ((containsKey hs "Content-Length".toList = true ∨
        containsKey hs "content-length".toList = true) →
      headersToSend hs body = hs) := by
  constructor
  · intro h1 h2
    have hv : (if body.isEmpty then 0 else utf8Len body) = utf8Len body := by
      cases body <;> simp [utf8Len]
    unfold headersToSend dictInsert
    rw [h1, h2, hv]
    simp
  · intro h
    unfold headersToSend
    rcases h with h | h <;> rw [h] <;> simp

/-- C6 witness: the amended rule evaluated at concrete header sets. -/
theorem c6_content_length_witness :
    headersToSend [] "ab".toList =
      [] ++ [("Content-Length".toList, natStr (utf8Len "ab".toList))] ∧
    headersToSend [("content-length".toList, "7".toList)] [] =
      [("content-length".toList, "7".toList)] :=
  ⟨(c6_content_length_amended [] "ab".toList).1 (by decide) (by decide),
    (c6_content_length_amended [("content-length".toList, "7".toList)] []).2
      (Or.inr (by decide))⟩

/-- C7 counterexample: with the single header `HOST: x` — a Host header
under HTTP's case-insensitive name comparison — and no explicit target,
resolution still fails closed, because the code looks up only the exact
keys `Host` and `host`; so resolution failure is not equivalent to "neither
a target nor a Host header is present". -/
theorem c7_counterexample :
    hasHostHeaderCI [("HOST".toList, "x".toList)] = true ∧
    resolveDest [("HOST".toList, "x".toList)] none "http".toList =
      .errOutcome noHostO := by
  constructor
  · decide
  · decide

theorem resolveHostPort_ne_err (s proto : Str) (o : TransportOutcome) :
    resolveHostPort s proto ≠ .errOutcome o := by
  unfold resolveHostPort
  split
  · split
    · split <;> simp
    · simp
  · simp

/-- C7 (amended): precedence holds — a truthy explicit target is always
used (with the protocol-default port when it has no colon, or its parsed
port otherwise), and otherwise the value found under the exact-case keys
`Host` then `host` is used; but resolution fails closed exactly when no
truthy target is given and that exact-case lookup yields the empty string
(so a Host header in any other casing, or with an empty value, does not
count). -/
theorem c7_resolution_amended :
    (∀ (hs : List (Str × Str)) (proto : Str),
        resolveDest hs none proto = .errOutcome noHostO ↔
          pyHostLookup hs = []) ∧
    (∀ (hs : List (Str × Str)) (th proto : Str),
        th ≠ [] → containsChar ':' th = false →
        resolveDest hs (some th) proto = .dest th (defaultPort proto)) ∧
    (∀ (hs : List (Str × Str)) (th proto h p : Str) (n : Int),
        th ≠ [] → splitFirst ':' th = some (h, p) → pyInt p = some n →
        resolveDest hs (some th) proto = .dest h n) ∧
    (∀ (hs : List (Str × Str)) (proto : Str),
        pyHostLookup hs ≠ [] → containsChar ':' (pyHostLookup hs) = false →
        resolveDest hs none proto =
          .dest (pyHostLookup hs) (defaultPort proto)) := by
  refine ⟨?_, ?_, ?_, ?_⟩
  · intro hs proto
    constructor
    · intro h
      by_contra hne
      have hne2 : (pyHostLookup hs).isEmpty = false := by
        cases hl : pyHostLookup hs
        · exact absurd hl hne
        · simp
      rw [resolveDest] at h
      simp only [hne2, Bool.false_eq_true, if_false] at h
      exact resolveHostPort_ne_err _ _ _ h
    · intro h
      simp [resolveDest, h]
  · intro hs th proto hne hcolon
    have hne2 : th.isEmpty = false := by
      cases th
      · exact absurd rfl hne
      · simp
    simp [resolveDest, hne2, resolveHostPort, hcolon]
  · intro hs th proto h p n hne hsplit hint
    have hne2 : th.isEmpty = false := by
      cases th
      · exact absurd rfl hne
      · simp
    have hcolon := splitFirst_contains ':' th (h, p) hsplit
    simp [resolveDest, hne2, resolveHostPort, hcolon, hsplit, hint]
  · intro hs proto hne hcolon
    have hne2 : (pyHostLookup hs).isEmpty = false := by
      cases hl : pyHostLookup hs
      · exact absurd hl hne
      · simp
    simp [resolveDest, hne2, resolveHostPort, hcolon]

/-- C7 witness: resolution evaluated at a concrete target and at a concrete
Host header value with a port. -/
theorem c7_resolution_witness :
    resolveDest [] (some "h:8080".toList) "https".toList =
      .dest "h".toList 8080 ∧
    resolveDest [("Host".toList, "h".toList)] none "http".toList =
      .dest (pyHostLookup [("Host".toList, "h".toList)])
        (defaultPort "http".toList) :=
  ⟨c7_resolution_amended.2.2.1 [] "h:8080".toList "https".toList
      "h".toList "8080".toList 8080 (by decide) (by decide) (by decide),
    c7_resolution_amended.2.2.2 [("Host".toList, "h".toList)]
      "http".toList (by decide) (by decide)⟩

theorem sendAttempts_attempts_le (rate : ℚ) (tr : Nat → AttemptTrace)
    (N : Nat) : ∀ (r a : Nat), (sendAttempts rate tr N a r).2.1 ≤ r := by
  intro r
  induction r with
  | zero => intro a; simp [sendAttempts]
  | succ k ih =>
    intro a
    rw [sendAttempts]
    split
    · show (sendAttempts rate tr N (a + 1) k).2.1 + 1 ≤ k + 1
      have h := ih (a + 1)
      omega
    · split
      · simp
      · split
        · show (sendAttempts rate tr N (a + 1) k).2.1 + 1 ≤ k + 1
          have h := ih (a + 1)
          omega
        · simp
      · split
        · show (sendAttempts rate tr N (a + 1) k).2.1 + 1 ≤ k + 1
          have h := ih (a + 1)
          omega
        · simp
      · split
        · show (sendAttempts rate tr N (a + 1) k).2.1 + 1 ≤ k + 1
          have h := ih (a + 1)
          omega
        · simp

theorem isFailEvent_not_loss (rate : ℚ) (t : AttemptTrace)
    (hfa : isFailEvent rate t = true)
    (hl : lossHappens rate t.draw = false) :
    (match tryAttempt t.net with
      | .ret _ => false
      | _ => true) = true := by
  unfold isFailEvent at hfa
  rw [hl] at hfa
  simpa using hfa

theorem sendAttempts_exhaust (rate : ℚ) (tr : Nat → AttemptTrace) (N : Nat) :
    ∀ (r a : Nat), 1 ≤ r → a + r = N →
      (∀ i, a ≤ i → i < N → isFailEvent rate (tr i) = true) →
      (sendAttempts rate tr N a r).1 = exhaustOutcome rate tr N ∧
      (sendAttempts rate tr N a r).2.1 = r := by
  intro r
  induction r with
  | zero => intro a h1; omega
  | succ k ih =>
    intro a h1 h2 hfail
    have hfa : isFailEvent rate (tr a) = true :=
      hfail a (Nat.le_refl a) (by omega)
    cases k with
    | zero =>
      have haN : a = N - 1 := by omega
      have hnotlt : ¬(a < N - 1) := by omega
      rw [sendAttempts]
      by_cases hl : lossHappens rate (tr a).draw = true
      · rw [exhaustOutcome]
        rw [← haN]
        simp [hl, sendAttempts]
      · have hl2 : lossHappens rate (tr a).draw = false :=
          Bool.not_eq_true _ ▸ (by simpa using hl)
        have hm := isFailEvent_not_loss rate (tr a) hfa hl2
        rw [exhaustOutcome, ← haN]
        cases htry : tryAttempt (tr a).net with
        | ret o => rw [htry] at hm; simp at hm
        | exTimeout => simp [hl2, htry, hnotlt]
        | exReset => simp [hl2, htry, hnotlt]
        | exOther => simp [hl2, htry, hnotlt]
    | succ k2 =>
      have haN : a < N - 1 := by omega
      have ihx := ih (a + 1) (by omega) (by omega)
        (fun i hi1 hi2 => hfail i (by omega) hi2)
      rw [sendAttempts]
      by_cases hl : lossHappens rate (tr a).draw = true
      · simp only [hl, if_true]
        constructor
        · show (sendAttempts rate tr N (a + 1) (k2 + 1)).1 =
            exhaustOutcome rate tr N
          exact ihx.1
        · show (sendAttempts rate tr N (a + 1) (k2 + 1)).2.1 + 1 = k2 + 1 + 1
          have h := ihx.2
          omega
      · have hl2 : lossHappens rate (tr a).draw = false :=
          Bool.not_eq_true _ ▸ (by simpa using hl)
        have hm := isFailEvent_not_loss rate (tr a) hfa hl2
        simp only [hl2, Bool.false_eq_true, if_false]
        cases htry : tryAttempt (tr a).net with
        | ret o => rw [htry] at hm; simp at hm
        | exTimeout =>
          simp only [htry, haN, if_true]
          constructor
          · show (sendAttempts rate tr N (a + 1) (k2 + 1)).1 =
              exhaustOutcome rate tr N
            exact ihx.1
          · show (sendAttempts rate tr N (a + 1) (k2 + 1)).2.1 + 1 = k2 + 1 + 1
            have h := ihx.2
            omega
        | exReset =>
          simp only [htry, haN, if_true]
          constructor
          · show (sendAttempts rate tr N (a + 1) (k2 + 1)).1 =
              exhaustOutcome rate tr N
            exact ihx.1
          · show (sendAttempts rate tr N (a + 1) (k2 + 1)).2.1 + 1 = k2 + 1 + 1
            have h := ihx.2
            omega
        | exOther =>
          simp only [htry, haN, if_true]
          constructor
          · show (sendAttempts rate tr N (a + 1) (k2 + 1)).1 =
              exhaustOutcome rate tr N
            exact ihx.1
          · show (sendAttempts rate tr N (a + 1) (k2 + 1)).2.1 + 1 = k2 + 1 + 1
            have h := ihx.2
            omega

theorem exhaustOutcome_statusCode (rate : ℚ) (tr : Nat → AttemptTrace)
    (N : Nat) (hfail : isFailEvent rate (tr (N - 1)) = true) :
    (exhaustOutcome rate tr N).statusCode = 0 := by
  rw [exhaustOutcome]
  by_cases hl : lossHappens rate (tr (N - 1)).draw = true
  · simp [hl, allFailedO]
  · have hl2 : lossHappens rate (tr (N - 1)).draw = false :=
      Bool.not_eq_true _ ▸ (by simpa using hl)
    have hm := isFailEvent_not_loss rate (tr (N - 1)) hfail hl2
    cases htry : tryAttempt (tr (N - 1)).net with
    | ret o => rw [htry] at hm; simp at hm
    | exTimeout => simp [hl2, htry, timeoutO]
    | exReset => simp [hl2, htry, resetO]
    | exOther => simp [hl2, htry, otherO]

/-- C2: with `maxRetries = N ≥ 1`, the retry loop consumes at most `N`
attempts (packet-loss skips consume an attempt exactly like a real failure);
and when every attempt fails, it returns — rather than raising — a synthetic
outcome with status code 0, namely `exhaustOutcome`: the reset, timeout and
generic terminal outcomes picked by the last attempt are pairwise
distinguishable, the reset one alone carrying `connectionReset = true`. -/
theorem c2_bounded_retries_exhaustion (rate : ℚ) (tr : Nat → AttemptTrace)
    (N : Nat) (hN : 1 ≤ N)
    (hfail : ∀ i, i < N → isFailEvent rate (tr i) = true) :
    (sendAttempts rate tr N 0 N).2.1 ≤ N ∧
    (sendAttempts rate tr N 0 N).1 = exhaustOutcome rate tr N ∧
    (sendAttempts rate tr N 0 N).2.1 = N ∧
    (exhaustOutcome rate tr N).statusCode = 0 ∧
    resetO.isRst = true ∧ (timeoutO N).isRst = false ∧
    otherO.isRst = false ∧ (allFailedO N).isRst = false ∧
    (timeoutO N).reason ≠ resetO.reason ∧
    (timeoutO N).reason ≠ otherO.reason ∧
    resetO.reason ≠ otherO.reason := by
  have hex := sendAttempts_exhaust rate tr N N 0 hN (by omega)
    (fun i _ hi2 => hfail i hi2)
  have ht : ((timeoutO N).reason).headD ' ' = 'T' := rfl
  refine ⟨sendAttempts_attempts_le rate tr N N 0, hex.1, hex.2,
    exhaustOutcome_statusCode rate tr N (hfail (N - 1) (by omega)),
    rfl, rfl, rfl, rfl, ?_, ?_, by decide⟩
  · intro h
    rw [h] at ht
    exact absurd ht (by decide)
  · intro h
    rw [h] at ht
    exact absurd ht (by decide)

/-- C2 witness: one attempt, failing by timeout, at loss rate 0. -/
theorem c2_bounded_retries_witness :
    (sendAttempts 0 (fun _ => ⟨0, NetEvent.timeout⟩) 1 0 1).2.1 ≤ 1 ∧
    (sendAttempts 0 (fun _ => ⟨0, NetEvent.timeout⟩) 1 0 1).1 =
      exhaustOutcome 0 (fun _ => ⟨0, NetEvent.timeout⟩) 1 ∧
    (sendAttempts 0 (fun _ => ⟨0, NetEvent.timeout⟩) 1 0 1).2.1 = 1 ∧
    (exhaustOutcome 0 (fun _ => ⟨0, NetEvent.timeout⟩) 1).statusCode = 0 ∧
    resetO.isRst = true ∧ (timeoutO 1).isRst = false ∧
    otherO.isRst = false ∧ (allFailedO 1).isRst = false ∧
    (timeoutO 1).reason ≠ resetO.reason ∧
    (timeoutO 1).reason ≠ otherO.reason ∧
    resetO.reason ≠ otherO.reason :=
  c2_bounded_retries_exhaustion 0 (fun _ => ⟨0, NetEvent.timeout⟩) 1
    (by decide)
    (fun i _ => (by decide : isFailEvent 0 ⟨0, NetEvent.timeout⟩ = true))

theorem sendAttempts_rate0_calls (tr : Nat → AttemptTrace) (N : Nat) :
    ∀ (r a : Nat),
      (sendAttempts 0 tr N a r).2.2 = (sendAttempts 0 tr N a r).2.1 := by
  intro r
  induction r with
  | zero => intro a; simp [sendAttempts]
  | succ k ih =>
    intro a
    rw [sendAttempts]
    have hl : lossHappens 0 (tr a).draw = false := by
      simp [lossHappens]
    simp only [hl, Bool.false_eq_true, if_false]
    split
    · simp
    · split
      · show (sendAttempts 0 tr N (a + 1) k).2.2 + 1 =
          (sendAttempts 0 tr N (a + 1) k).2.1 + 1
        have h := ih (a + 1)
        omega
      · simp
    · split
      · show (sendAttempts 0 tr N (a + 1) k).2.2 + 1 =
          (sendAttempts 0 tr N (a + 1) k).2.1 + 1
        have h := ih (a + 1)
        omega
      · simp
    · split
      · show (sendAttempts 0 tr N (a + 1) k).2.2 + 1 =
          (sendAttempts 0 tr N (a + 1) k).2.1 + 1
        have h := ih (a + 1)
        omega
      · simp

theorem sendAttempts_rate1_loss (tr : Nat → AttemptTrace) (N : Nat) :
    ∀ (r a : Nat), (∀ i, a ≤ i → i < a + r → (tr i).draw < 1) →
      sendAttempts 1 tr N a r = (allFailedO N, r, 0) := by
  intro r
  induction r with
  | zero => intro a _; rfl
  | succ k ih =>
    intro a h
    have hd : (tr a).draw < 1 := h a (Nat.le_refl a) (by omega)
    have hl : lossHappens 1 (tr a).draw = true := by
      simp [lossHappens, hd]
    rw [sendAttempts]
    simp only [hl, if_true]
    rw [ih (a + 1) (fun i hi1 hi2 => h i (by omega) (by omega))]

/-- C8: at loss rate 0 the packet-loss simulation never skips an attempt —
the number of real network calls equals the number of attempts consumed; at
loss rate 1 (with every uniform draw below 1, as `random.random()`
guarantees) every attempt is skipped by simulated loss: all `maxRetries`
attempts are consumed, zero real network calls are made, and the delivery
returns the synthetic `allFailedO` outcome with status code 0 instead of
raising. -/
theorem c8_loss_rate_boundaries :
    (∀ (tr : Nat → AttemptTrace) (N r a : Nat),
        (sendAttempts 0 tr N a r).2.2 = (sendAttempts 0 tr N a r).2.1) ∧
    (∀ (tr : Nat → AttemptTrace) (N : Nat),
        (∀ i, i < N → (tr i).draw < 1) →
        sendAttempts 1 tr N 0 N = (allFailedO N, N, 0) ∧
        (allFailedO N).statusCode = 0) ∧
    (∀ (rl : Str) (hs : List (Str × Str)) (b th proto : Str)
        (tr : Nat → AttemptTrace) (N : Nat),
        2 ≤ (splitWs rl).length → th ≠ [] →
        containsChar ':' th = false →
        (∀ i, i < N → (tr i).draw < 1) →
        sendRequest rl hs b (some th) proto 1 N tr =
          some (allFailedO N, N, 0)) := by
  refine ⟨fun tr N r a => sendAttempts_rate0_calls tr N r a, ?_, ?_⟩
  · intro tr N h
    exact ⟨sendAttempts_rate1_loss tr N N 0 (fun i _ hi2 => h i (by omega)),
      rfl⟩
  · intro rl hs b th proto tr N hrl hth hcolon h
    have hne2 : th.isEmpty = false := by
      cases th
      · exact absurd rfl hth
      · simp
    have hlen : ¬((splitWs rl).length < 2) := by omega
    unfold sendRequest
    simp only [hlen, if_false]
    rw [resolveDest]
    simp only [hne2, Bool.false_eq_true, if_false]
    rw [resolveHostPort]
    simp only [hcolon, Bool.false_eq_true, if_false]
    rw [sendAttempts_rate1_loss tr N N 0 (fun i _ hi2 => h i (by omega))]

/-- C8 witness: three attempts, loss rate 1, draws all 0: the loop consumes
three attempts, makes no real call, and yields the synthetic outcome. -/
theorem c8_loss_rate_witness :
    sendAttempts 1 (fun _ => ⟨0, NetEvent.timeout⟩) 3 0 3 =
      (allFailedO 3, 3, 0) ∧
    sendRequest "GET / HTTP/1.1".toList [] [] (some "h".toList)
      "http".toList 1 3 (fun _ => ⟨0, NetEvent.timeout⟩) =
      some (allFailedO 3, 3, 0) :=
  ⟨(c8_loss_rate_boundaries.2.1 (fun _ => ⟨0, NetEvent.timeout⟩) 3
      (fun i _ => (by decide : (0:ℚ) < 1))).1,
    c8_loss_rate_boundaries.2.2 "GET / HTTP/1.1".toList [] [] "h".toList
      "http".toList (fun _ => ⟨0, NetEvent.timeout⟩) 3 (by decide)
      (by decide) (by decide) (fun i _ => (by decide : (0:ℚ) < 1))⟩

/-- C9: a request line with fewer than two tokens makes `send_request`
return the outcome `(0, "Invalid request line", "", False)` instead of
raising, and the sample's test therefore still yields a result value, so a
malformed sample cannot abort a batch run. -/
theorem c9_invalid_request_line :
    (∀ (rl : Str) (hs : List (Str × Str)) (b : Str) (target : Option Str)
        (proto : Str) (rate : ℚ) (N : Nat) (tr : Nat → AttemptTrace),
        (splitWs rl).length < 2 →
        sendRequest rl hs b target proto rate N tr =
          some (⟨0, "Invalid request line".toList, [], false⟩, 0, 0)) ∧
    (∀ (content : Str) (isBlack : Bool) (target : Option Str) (proto : Str)
        (rate : ℚ) (N : Nat) (cc : Int) (rd : Bool) (kw : Option Str)
        (tr : Nat → AttemptTrace) (rhb : Str × List (Str × Str) × Str),
        parse_http_request content = some rhb →
        (splitWs rhb.1).length < 2 →
        ∃ r, testFileContent content isBlack target proto rate N cc rd kw tr =
            some r ∧
          r.statusCode = 0 ∧ r.reason = "Invalid request line".toList) := by
  have p1 : ∀ (rl : Str) (hs : List (Str × Str)) (b : Str)
      (target : Option Str) (proto : Str) (rate : ℚ) (N : Nat)
      (tr : Nat → AttemptTrace), (splitWs rl).length < 2 →
      sendRequest rl hs b target proto rate N tr =
        some (⟨0, "Invalid request line".toList, [], false⟩, 0, 0) := by
    intro rl hs b target proto rate N tr h
    unfold sendRequest
    simp [h]
  refine ⟨p1, ?_⟩
  intro content isBlack target proto rate N cc rd kw tr rhb hp hlen
  unfold testFileContent
  simp only [hp, p1 rhb.1 rhb.2.1 rhb.2.2 target proto rate N tr hlen]
  exact ⟨_, rfl, rfl, rfl⟩

/-- C9 witness: a one-token request line evaluated through the pipeline. -/
theorem c9_invalid_request_line_witness :
    ∃ r, testFileContent "POST\n\nx".toList true none "http".toList 0 3 403
        false none (fun _ => ⟨0, NetEvent.timeout⟩) = some r ∧
      r.statusCode = 0 ∧ r.reason = "Invalid request line".toList :=
  c9_invalid_request_line.2 "POST\n\nx".toList true none "http".toList 0 3
    403 false none (fun _ => ⟨0, NetEvent.timeout⟩)
    ("POST".toList, [], "x".toList) (by decide) (by decide)

/-- C4 counterexample: a white sample whose delivery exhausts all retries by
timeout is recorded with `correct = true` under the default policy (status
0 is not the block code 403, so `actuallyBlocked = false`, matching the
white expectation) — not as a failed Verdict as the claim states. -/
theorem c4_counterexample :
    (testFileContent "GET / HTTP/1.1\nHost: example.com\n\n".toList false
        (some "127.0.0.1".toList) "http".toList 0 1 403 false none
        (fun _ => ⟨0, NetEvent.timeout⟩)).map (fun r => r.isCorrect) =
      some true := by
  decide

/-- C4 (amended): when all transport attempts fail (timeout, reset, other
error, or simulated loss), the sample yields a Verdict whose outcome has
status code 0; its correctness is not unconditionally false but equal to
the expectation compared with the detection policy applied to the synthetic
terminal outcome; under the default policy (block code 403, reset detection
off, no keyword) black samples get `correct = false` and white samples get
`correct = true`. -/
theorem c4_exhausted_transport_amended
    (content : Str) (isBlack : Bool) (th proto : Str) (rate : ℚ) (N : Nat)
    (cc : Int) (rd : Bool) (kw : Option Str) (tr : Nat → AttemptTrace)
    (rhb : Str × List (Str × Str) × Str)
    (hp : parse_http_request content = some rhb)
    (hlen : 2 ≤ (splitWs rhb.1).length)
    (hth : th ≠ []) (hcolon : containsChar ':' th = false)
    (hN : 1 ≤ N)
    (hfail : ∀ i, i < N → isFailEvent rate (tr i) = true) :
    ∃ r, testFileContent content isBlack (some th) proto rate N cc rd kw tr =
        some r ∧
      r.statusCode = 0 ∧
      r.isCorrect =
        (isBlack ==
          actuallyBlocked (exhaustOutcome rate tr N).statusCode
            (exhaustOutcome rate tr N).reason
            (exhaustOutcome rate tr N).responseBody
            (exhaustOutcome rate tr N).isRst cc rd kw) ∧
      (cc = 403 → rd = false → kw = none → r.isCorrect = !isBlack) := by
  have hex := sendAttempts_exhaust rate tr N N 0 hN (by omega)
    (fun i _ h2 => hfail i h2)
  have hsc := exhaustOutcome_statusCode rate tr N (hfail (N - 1) (by omega))
  have hne2 : th.isEmpty = false := by
    cases th
    · exact absurd rfl hth
    · simp
  have hlen2 : ¬((splitWs rhb.1).length < 2) := by omega
  have hsend : sendRequest rhb.1 rhb.2.1 rhb.2.2 (some th) proto rate N tr =
      some (sendAttempts rate tr N 0 N) := by
    unfold sendRequest
    simp only [hlen2, if_false]
    rw [resolveDest]
    simp only [hne2, Bool.false_eq_true, if_false]
    rw [resolveHostPort]
    simp only [hcolon, Bool.false_eq_true, if_false]
  unfold testFileContent
  simp only [hp, hsend]
  refine ⟨_, rfl, ?_, ?_, ?_⟩
  · show (sendAttempts rate tr N 0 N).1.statusCode = 0
    rw [hex.1]
    exact hsc
  · show (isBlack ==
        actuallyBlocked (sendAttempts rate tr N 0 N).1.statusCode
          (sendAttempts rate tr N 0 N).1.reason
          (sendAttempts rate tr N 0 N).1.responseBody
          (sendAttempts rate tr N 0 N).1.isRst cc rd kw) =
      (isBlack ==
        actuallyBlocked (exhaustOutcome rate tr N).statusCode
          (exhaustOutcome rate tr N).reason
          (exhaustOutcome rate tr N).responseBody
          (exhaustOutcome rate tr N).isRst cc rd kw)
    rw [hex.1]
  · intro h1 h2 h3
    subst h1
    subst h2
    subst h3
    show (isBlack ==
        actuallyBlocked (sendAttempts rate tr N 0 N).1.statusCode
          (sendAttempts rate tr N 0 N).1.reason
          (sendAttempts rate tr N 0 N).1.responseBody
          (sendAttempts rate tr N 0 N).1.isRst 403 false none) = !isBlack
    rw [hex.1, hsc]
    have hab : actuallyBlocked 0 (exhaustOutcome rate tr N).reason
        (exhaustOutcome rate tr N).responseBody
        (exhaustOutcome rate tr N).isRst 403 false none = false := by
      simp only [actuallyBlocked, optTruthy]
      norm_num
    rw [hab]
    cases isBlack <;> rfl

/-- C4 witness: a black sample whose two attempts are both connection
resets, under the default policy. -/
theorem c4_exhausted_transport_witness :
    ∃ r, testFileContent "GET / HTTP/1.1\nHost: x\n\n".toList true
        (some "127.0.0.1".toList) "http".toList 0 2 403 false none
        (fun _ => ⟨0, NetEvent.reset⟩) = some r ∧
      r.statusCode = 0 ∧
      r.isCorrect =
        (true ==
          actuallyBlocked
            (exhaustOutcome 0 (fun _ => ⟨0, NetEvent.reset⟩) 2).statusCode
            (exhaustOutcome 0 (fun _ => ⟨0, NetEvent.reset⟩) 2).reason
            (exhaustOutcome 0 (fun _ => ⟨0, NetEvent.reset⟩) 2).responseBody
            (exhaustOutcome 0 (fun _ => ⟨0, NetEvent.reset⟩) 2).isRst
            403 false none) ∧
      ((403 : Int) = 403 → false = false → (none : Option Str) = none →
        r.isCorrect = !true) :=
  c4_exhausted_transport_amended "GET / HTTP/1.1\nHost: x\n\n".toList true
    "127.0.0.1".toList "http".toList 0 2 403 false none
    (fun _ => ⟨0, NetEvent.reset⟩)
    ("GET / HTTP/1.1".toList, [("Host".toList, "x".toList)], [])
    (by decide) (by decide) (by decide) (by decide) (by decide)
    (fun i _ => (by decide : isFailEvent 0 ⟨0, NetEvent.reset⟩ = true))

/-- C3 counterexample: with a valid target and a missing sample directory,
the process prints an error but returns normally, exiting 0 where the claim
requires non-zero; and with a valid target, an existing directory and no
samples at all, the summary's division by the sample count raises
`ZeroDivisionError`, exiting 1 where the claim requires zero. -/
theorem c3_counterexample :
    mainExit (some "http://127.0.0.1".toList) false [(true, true)] = 0 ∧
    mainExit (some "http://127.0.0.1".toList) true [] = 1 := by
  constructor
  · decide
  · decide

/-- C3 (amended): the CLI exits non-zero when no truthy target is supplied;
with a valid target it exits 0 when the sample directory does not exist
(only an error message is printed), exits 0 when the directory exists and
holds at least one sample — regardless of how many samples match — and
exits 1 (uncaught `ZeroDivisionError`) when the directory exists but holds
no samples. -/
theorem c3_exit_codes_amended :
    (∀ (d : Bool) (rs : List (Bool × Bool)), mainExit none d rs = 1) ∧
    (∀ (d : Bool) (rs : List (Bool × Bool)), mainExit (some []) d rs = 1) ∧
    (∀ (t : Str) (rs : List (Bool × Bool)), t ≠ [] →
        mainExit (some t) false rs = 0) ∧
    (∀ (t : Str) (rs : List (Bool × Bool)), t ≠ [] → rs ≠ [] →
        mainExit (some t) true rs = 0) ∧
    (∀ (t : Str), t ≠ [] → mainExit (some t) true [] = 1) := by
  refine ⟨fun d rs => rfl, fun d rs => rfl, ?_, ?_, ?_⟩
  · intro t rs ht
    have h1 : t.isEmpty = false := by
      cases t
      · exact absurd rfl ht
      · simp
    simp [mainExit, h1, test_directory_run]
  · intro t rs ht hrs
    have h1 : t.isEmpty = false := by
      cases t
      · exact absurd rfl ht
      · simp
    have h2 : rs.length ≠ 0 := by
      cases rs
      · exact absurd rfl hrs
      · simp
    have h3 : ((rs.length : ℚ)) ≠ 0 := Nat.cast_ne_zero.mpr h2
    simp [mainExit, h1, test_directory_run, pyDiv, h3]
  · intro t ht
    have h1 : t.isEmpty = false := by
      cases t
      · exact absurd rfl ht
      · simp
    simp [mainExit, h1, test_directory_run, pyDiv]

/-- C3 witness: the amended exit-code rules evaluated at concrete inputs. -/
theorem c3_exit_codes_witness :
    mainExit (some ['t']) false [] = 0 ∧
    mainExit (some ['t']) true [(false, true)] = 0 ∧
    mainExit (some ['t']) true [] = 1 :=
  ⟨c3_exit_codes_amended.2.2.1 ['t'] [] (by decide),
    c3_exit_codes_amended.2.2.2.1 ['t'] [(false, true)] (by decide)
      (by decide),
    c3_exit_codes_amended.2.2.2.2 ['t'] (by decide)⟩

end WafTester
